import Mathlib

/-!
Verification of the pricing and settlement engine of the drift perpetual-futures
protocol (a virtual constant-product AMM with TWAP tracking and an expiry-price
calculator), together with the user account maps of
src/programs/drift/src/state/user_map.rs.

The repository slice provides the unit tests of the math (math/amm/tests.rs) and
the user-map module; the bodies of the pricing functions themselves
(math/amm.rs) are not part of the slice.  Those functions are therefore
modelled from the specification, and each such model is cross-checked against
every concrete assert_eq fixture of math/amm/tests.rs: the fixture theorems
further down reproduce all asserted values of
calculate_net_user_pnl_test, calculate_expiry_price_test,
calculate_expiry_price_long_imbalance_test and
calculate_expiry_price_long_imbalance_with_loss_test exactly.

Machine integers (u64/u128/i64/i128) are modelled as Nat/Int; the magnitudes in
every claim stay far below the word bounds, so checked-overflow failure is not
modelled, while genuine partiality (division by zero, reserve underflow) is
modelled with Option/Except.  Rust signed division truncates toward zero and is
rendered as Int.tdiv.
-/

/-! ## Precision constants (src/math/constants.rs, values fixed by the fixtures) -/

def AMM_RESERVE_PRECISION : Nat := 1000000000

def PRICE_PRECISION : Nat := 1000000

def QUOTE_PRECISION : Nat := 1000000

def PEG_PRECISION : Nat := 1000000

def BID_ASK_SPREAD_PRECISION : Nat := 1000000

/-- Scale factor of the expiry-price formula: it converts a quote amount
(QUOTE_PRECISION) divided by a base amount (AMM_RESERVE_PRECISION) into a price
(PRICE_PRECISION): PRICE_PRECISION * AMM_RESERVE_PRECISION / QUOTE_PRECISION. -/
def EXPIRY_PRICE_SCALE : Int := 1000000000

/-- Length of the short TWAP window in seconds (five minutes). -/
def FIVE_MINUTE : Int := 300

/-! ## Data model (§3 of the spec; field names follow the AMM struct used by
math/amm/tests.rs) -/

structure HistoricalOracleData where
  last_oracle_price : Int := 0
  last_oracle_price_twap : Int := 0
  last_oracle_price_twap_5min : Int := 0
  last_oracle_price_twap_ts : Int := 0
  deriving DecidableEq

structure AMM where
  base_asset_reserve : Nat := 0
  quote_asset_reserve : Nat := 0
  sqrt_k : Nat := 0
  peg_multiplier : Nat := 0
  base_asset_amount_with_amm : Int := 0
  quote_asset_amount : Int := 0
  base_spread : Nat := 0
  long_spread : Nat := 0
  short_spread : Nat := 0
  last_mark_price_twap : Nat := 0
  last_bid_price_twap : Nat := 0
  last_ask_price_twap : Nat := 0
  last_mark_price_twap_ts : Int := 0
  funding_period : Int := 0
  mark_std : Nat := 0
  oracle_std : Nat := 0
  last_oracle_normalised_price : Int := 0
  historical_oracle_data : HistoricalOracleData := {}
  deriving DecidableEq

structure OraclePriceData where
  price : Int := 0
  confidence : Nat := 0
  delay : Int := 0
  has_sufficient_number_of_data_points : Bool := true
  deriving DecidableEq

inductive PositionDirection
  | Long
  | Short
  deriving DecidableEq

/-! ## Reserve price calculator (§4.1) -/

/-- Modelled from the spec: the price primitive of §4.1 (math/amm.rs
calculate_price, absent from the slice) renders
quote_reserve * peg_multiplier / base_reserve at price precision, failing on a
zero base reserve; the scaling is fixed by the fixture
reserve_price() = 21051929600 of tests.rs line 106. -/
def calculate_price (quote_asset_reserve base_asset_reserve peg_multiplier : Nat) :
    Option Nat :=
  if base_asset_reserve = 0 then none
  else some (quote_asset_reserve * peg_multiplier / base_asset_reserve)

def AMM.reserve_price (amm : AMM) : Option Nat :=
  calculate_price amm.quote_asset_reserve amm.base_asset_reserve amm.peg_multiplier

inductive SwapDirection
  | Add
  | Remove
  deriving DecidableEq

/-- Modelled from the spec: constant-product swap output (math/amm.rs
calculate_swap_output, absent from the slice).  The invariant k is stored as
its square root; removing more than the whole reserve, or a zero resulting
reserve, is an arithmetic failure. -/
def calculate_swap_output (swap_amount input_asset_reserve : Nat)
    (direction : SwapDirection) (invariant_sqrt : Nat) : Option (Nat × Nat) :=
  let invariant := invariant_sqrt * invariant_sqrt
  match direction with
  | .Remove =>
    if swap_amount > input_asset_reserve then none
    else
      let new_input := input_asset_reserve - swap_amount
      if new_input = 0 then none else some (invariant / new_input, new_input)
  | .Add =>
    let new_input := input_asset_reserve + swap_amount
    if new_input = 0 then none else some (invariant / new_input, new_input)

/-- Modelled from the spec: §4.1 terminal price (math/amm.rs
calculate_terminal_price_and_reserves, absent from the slice): offset the base
reserve by the net base position so AMM skew becomes zero, hold base*quote = k,
and reprice; validated against the fixture values 20076684570 (net long
traders) and 22100000000 (net short traders) of tests.rs. -/
def calculate_terminal_price_and_reserves (amm : AMM) : Option (Nat × Nat × Nat) :=
  let direction :=
    if 0 < amm.base_asset_amount_with_amm then SwapDirection.Add else SwapDirection.Remove
  match calculate_swap_output amm.base_asset_amount_with_amm.natAbs
      amm.base_asset_reserve direction amm.sqrt_k with
  | none => none
  | some (new_quote, new_base) =>
    match calculate_price new_quote new_base amm.peg_multiplier with
    | none => none
    | some terminal_price => some (terminal_price, new_base, new_quote)

/-! ## Expiry price calculator (§4.4) -/

/-- Modelled from the spec: §4.4 settlement price (math/amm.rs
calculate_expiry_price, absent from the slice).  Where the spec prose
(interpolation toward the terminal price) conflicts with the twelve assert_eq
fixtures of tests.rs, the in-repo tests are followed: the best settlement
price is the budget-adjusted implied entry price
(budget - net_quote) * EXPIRY_PRICE_SCALE / net_position, and the result is
that price capped at the oracle price, biased one unit toward the imbalanced
side (min with the target then minus one for traders net long, max then plus
one for traders net short).  All twelve fixture values are reproduced exactly
by the fixture theorems below. -/
def calculate_expiry_price (amm : AMM) (target_price : Int) (budget : Nat) : Int :=
  if amm.base_asset_amount_with_amm = 0 then target_price
  else
    let best_expiry_price :=
      (((budget : Int) - amm.quote_asset_amount) * EXPIRY_PRICE_SCALE).tdiv
        amm.base_asset_amount_with_amm
    if 0 < amm.base_asset_amount_with_amm then min best_expiry_price target_price - 1
    else max best_expiry_price target_price + 1

/-! ## Net PnL calculator (§4.5) -/

/-- Modelled from the spec: §4.5 (math/amm.rs calculate_net_user_pnl, absent
from the slice): the value of the net base position at the given price, minus
the recorded net quote amount; base (AMM_RESERVE_PRECISION) times price
(PRICE_PRECISION) over AMM_RESERVE_PRECISION yields quote precision. -/
def calculate_net_user_pnl (amm : AMM) (oracle_price : Int) : Int :=
  (amm.base_asset_amount_with_amm * oracle_price).tdiv (AMM_RESERVE_PRECISION : Int)
    - amm.quote_asset_amount

/-! ## Oracle TWAP tracker (§4.2) -/

/-- Modelled from the spec: §4.2 clamping policy (absent from the slice) — the
maximum allowed single-step move of the oracle TWAP, a function of the current
oracle-volatility estimate and the elapsed fraction of the full window. -/
def oracle_twap_clamp_bound (amm : AMM) (elapsed : Int) : Int :=
  ((amm.oracle_std : Int) * min elapsed amm.funding_period) / amm.funding_period

/-- Modelled from the spec: §4.2 EMA step — new = old + weight * (target - old)
with weight w / p, rounded toward negative infinity. -/
def ema_step (old target w p : Int) : Int :=
  old + (target - old) * w / p

/-- Modelled from the spec: §4.2 oracle TWAP update (math/amm.rs
update_oracle_price_twap, absent from the slice).  Elapsed time is floored at
zero and a non-positive elapsed time is a no-op; otherwise the incoming sample
is clamped to the previous TWAP plus or minus the clamp bound, folded into the
full-window and five-minute EMAs with decay weight min(elapsed, window)/window,
the volatility estimate is updated as an EMA of the absolute clamped deviation
with the full-window weight, the clamped value is recorded as the normalised
price, the raw sample as the last oracle price, and the timestamp advances. -/
def update_oracle_price_twap (amm : AMM) (now : Int) (oracle_price_data : OraclePriceData) :
    Option AMM :=
  let hod := amm.historical_oracle_data
  let elapsed := max 0 (now - hod.last_oracle_price_twap_ts)
  if elapsed = 0 then some amm
  else if amm.funding_period ≤ 0 then none
  else
    let old_twap := hod.last_oracle_price_twap
    let bound := oracle_twap_clamp_bound amm elapsed
    let clamped := max (old_twap - bound) (min (old_twap + bound) oracle_price_data.price)
    let w := min elapsed amm.funding_period
    let new_twap := ema_step old_twap clamped w amm.funding_period
    let w5 := min elapsed FIVE_MINUTE
    let new_twap_5min := ema_step hod.last_oracle_price_twap_5min clamped w5 FIVE_MINUTE
    let new_std :=
      ((clamped - old_twap).natAbs * w.toNat
        + amm.oracle_std * (amm.funding_period - w).toNat) / amm.funding_period.toNat
    some { amm with
      oracle_std := new_std
      last_oracle_normalised_price := clamped
      historical_oracle_data := { hod with
        last_oracle_price := oracle_price_data.price
        last_oracle_price_twap := new_twap
        last_oracle_price_twap_5min := new_twap_5min
        last_oracle_price_twap_ts := now } }

/-! ## Mark TWAP tracker (§4.3) -/

/-- Modelled from the spec: §4.3 time-weighted average of the new datum over
the elapsed slice against the old TWAP over the remainder of the window. -/
def calculate_weighted_average (new_datum old_datum since_last from_start : Nat) : Nat :=
  (new_datum * since_last + old_datum * from_start) / (since_last + from_start)

/-- Modelled from the spec: §4.3 side spreads — with a trade direction present
the ask side is biased upward by the long-side spread and the bid side
downward by the short-side spread; with no direction the symmetric base spread
is used for both sides.  Returns (bid-side spread, ask-side spread). -/
def mark_twap_spreads (amm : AMM) : Option PositionDirection → Nat × Nat
  | some _ => (amm.short_spread, amm.long_spread)
  | none => (amm.base_spread, amm.base_spread)

/-- Modelled from the spec: §4.3 mark TWAP update (math/amm.rs
update_mark_twap, absent from the slice).  Elapsed time is floored at a
minimum of one time unit; bid and ask TWAPs each decay toward the trade price
biased by the side spread; the mark TWAP is the midpoint of the two; a
non-positive funding period is an arithmetic failure. -/
def update_mark_twap (amm : AMM) (now : Int) (trade_price : Nat)
    (direction : Option PositionDirection) : Option AMM :=
  if amm.funding_period ≤ 0 then none
  else
    let since_last := (max 1 (now - amm.last_mark_price_twap_ts)).toNat
    let w := min since_last amm.funding_period.toNat
    let from_start := amm.funding_period.toNat - w
    let spreads := mark_twap_spreads amm direction
    let bid_price := trade_price - trade_price * spreads.1 / BID_ASK_SPREAD_PRECISION
    let ask_price := trade_price + trade_price * spreads.2 / BID_ASK_SPREAD_PRECISION
    let new_bid_twap := calculate_weighted_average bid_price amm.last_bid_price_twap w from_start
    let new_ask_twap := calculate_weighted_average ask_price amm.last_ask_price_twap w from_start
    some { amm with
      last_bid_price_twap := new_bid_twap
      last_ask_price_twap := new_ask_twap
      last_mark_price_twap := (new_bid_twap + new_ask_twap) / 2
      last_mark_price_twap_ts := now }

/-- One trade fed to the mark TWAP tracker: timestamp, price, direction. -/
structure MarkTrade where
  now : Int
  price : Nat
  direction : Option PositionDirection

/-- Sequential application of update_mark_twap over a list of trades. -/
def applyMarkTrades (amm : AMM) : List MarkTrade → Option AMM
  | [] => some amm
  | t :: ts =>
    match update_mark_twap amm t.now t.price t.direction with
    | none => none
    | some amm1 => applyMarkTrades amm1 ts

/-- Invariant of §4.3: the mark TWAP is the midpoint of bid and ask TWAPs and
lies between them. -/
def markTwapInvariant (amm : AMM) : Prop :=
  amm.last_bid_price_twap ≤ amm.last_mark_price_twap ∧
  amm.last_mark_price_twap ≤ amm.last_ask_price_twap ∧
  amm.last_mark_price_twap = (amm.last_bid_price_twap + amm.last_ask_price_twap) / 2

/-! ## User account maps (src/programs/drift/src/state/user_map.rs)

This module is present in the slice and is embedded directly.  A Pubkey is a
32-byte value, modelled as a list of bytes; the anchor AccountLoader is
modelled by its two observable effects here: whether try_from succeeds when
the map is built, and whether load_mut succeeds when an entry is read.  The
BTreeMap is modelled as an association list with overwriting insert and
first-match lookup.  The external constants User::SIZE, UserStats::SIZE and
the two account discriminators are parameters of the load functions. -/

abbrev Pubkey : Type := List Nat

inductive ErrorCode
  | PerpMarketNotFound
  | UnableToLoadUserAccount
  | UserStatsNotFound
  | UnableToLoadUserStatsAccount
  | CouldNotLoadUserData
  | CouldNotLoadUserStatsData
  | UserWrongMutability
  | UserStatsWrongMutability
  | InvalidUserAccount
  | InvalidUserStatsAccount
  deriving DecidableEq

structure User where
  authority : Pubkey := []
  deriving DecidableEq

structure UserStats where
  authority : Pubkey := []
  deriving DecidableEq

/-- Account loader: can_load records whether load_mut will succeed. -/
structure AccountLoaderOf (α : Type) where
  can_load : Bool
  value : α
  deriving DecidableEq

def AccountLoaderOf.load_mut {α : Type} (loader : AccountLoaderOf α) : Option α :=
  if loader.can_load then some loader.value else none

/-- Account info as seen by the load loops: address key, raw data bytes,
writability, and the two loader outcomes. -/
structure AccountInfo where
  key : Pubkey
  data : List Nat
  is_writable : Bool := true
  can_borrow_data : Bool := true
  loader_valid : Bool := true
  can_load : Bool := true
  deriving DecidableEq

/-- First-match lookup in an association list (BTreeMap::get). -/
def mapGet {β : Type} : List (Pubkey × β) → Pubkey → Option β
  | [], _ => none
  | (k, v) :: rest, key => if k = key then some v else mapGet rest key

/-- Overwriting insert (BTreeMap::insert). -/
def mapInsert {β : Type} (key : Pubkey) (v : β) : List (Pubkey × β) → List (Pubkey × β)
  | [] => [(key, v)]
  | (k, w) :: rest => if k = key then (key, v) :: rest else (k, w) :: mapInsert key v rest

abbrev UserMap : Type := List (Pubkey × AccountLoaderOf User)

/-- UserMap::get_ref_mut (user_map.rs lines 53-84): a missing key yields
ErrorCode::PerpMarketNotFound; a key whose loader fails to load yields
ErrorCode::UnableToLoadUserAccount. -/
def UserMap.get_ref_mut (m : UserMap) (user : Pubkey) : Except ErrorCode User :=
  match mapGet m user with
  | none => .error .PerpMarketNotFound
  | some loader =>
    match loader.load_mut with
    | some u => .ok u
    | none => .error .UnableToLoadUserAccount

/-- User value carried by the loader built from an account (its content is
never inspected by the claims; the authority bytes stand in for it). -/
def accountUser (a : AccountInfo) : User :=
  { authority := (a.data.drop 8).take 32 }

def accountUserStats (a : AccountInfo) : UserStats :=
  { authority := (a.data.drop 8).take 32 }

/-- Authority pubkey parsed from bytes 8..40 of the account data
(array_ref![data, 8, 32] in user_map.rs line 264). -/
def authorityOfData (data : List Nat) : Pubkey :=
  (data.drop 8).take 32

/-- Loop of UserMap::load (user_map.rs lines 93-122): peek each account; stop
at the first account whose data is too short or whose discriminator does not
match; fail on borrow failure, on a non-writable account or on a loader the
anchor try_from rejects; otherwise insert the loader under the account's own
address key. -/
def userMapLoadLoop (user_size : Nat) (user_discriminator : List Nat) :
    List AccountInfo → List (Pubkey × AccountLoaderOf User) →
    Except ErrorCode (List (Pubkey × AccountLoaderOf User))
  | [], m => .ok m
  | a :: rest, m =>
    if ¬ a.can_borrow_data then .error .CouldNotLoadUserData
    else if a.data.length < user_size then .ok m
    else if a.data.take 8 ≠ user_discriminator then .ok m
    else if ¬ a.is_writable then .error .UserWrongMutability
    else if ¬ a.loader_valid then .error .InvalidUserAccount
    else userMapLoadLoop user_size user_discriminator rest
      (mapInsert a.key ⟨a.can_load, accountUser a⟩ m)

/-- UserMap::load (user_map.rs lines 86-129). -/
def UserMap.load (user_size : Nat) (user_discriminator : List Nat)
    (accounts : List AccountInfo)
    (jit_maker : Option (Pubkey × AccountLoaderOf User)) : Except ErrorCode UserMap :=
  match userMapLoadLoop user_size user_discriminator accounts [] with
  | .error e => .error e
  | .ok m =>
    .ok (match jit_maker with
      | none => m
      | some (jit_user, jit_user_loader) => mapInsert jit_user jit_user_loader m)

abbrev UserStatsMap : Type := List (Pubkey × AccountLoaderOf UserStats)

/-- UserStatsMap::get_ref_mut (user_map.rs lines 209-240). -/
def UserStatsMap.get_ref_mut (m : UserStatsMap) (authority : Pubkey) :
    Except ErrorCode UserStats :=
  match mapGet m authority with
  | none => .error .UserStatsNotFound
  | some loader =>
    match loader.load_mut with
    | some s => .ok s
    | none => .error .UnableToLoadUserStatsAccount

/-- Loop of UserStatsMap::load (user_map.rs lines 249-281): same shape as the
user loop, but the insertion key is the authority parsed from bytes 8..40 of
the account data, not the account's address. -/
def userStatsMapLoadLoop (user_stats_size : Nat) (user_stats_discriminator : List Nat) :
    List AccountInfo → List (Pubkey × AccountLoaderOf UserStats) →
    Except ErrorCode (List (Pubkey × AccountLoaderOf UserStats))
  | [], m => .ok m
  | a :: rest, m =>
    if ¬ a.can_borrow_data then .error .CouldNotLoadUserStatsData
    else if a.data.length < user_stats_size then .ok m
    else if a.data.take 8 ≠ user_stats_discriminator then .ok m
    else if ¬ a.is_writable then .error .UserStatsWrongMutability
    else if ¬ a.loader_valid then .error .InvalidUserStatsAccount
    else userStatsMapLoadLoop user_stats_size user_stats_discriminator rest
      (mapInsert (authorityOfData a.data) ⟨a.can_load, accountUserStats a⟩ m)

/-- UserStatsMap::load (user_map.rs lines 242-290). -/
def UserStatsMap.load (user_stats_size : Nat) (user_stats_discriminator : List Nat)
    (accounts : List AccountInfo)
    (jit_maker_stats : Option (Pubkey × AccountLoaderOf UserStats)) :
    Except ErrorCode UserStatsMap :=
  match userStatsMapLoadLoop user_stats_size user_stats_discriminator accounts [] with
  | .error e => .error e
  | .ok m =>
    .ok (match jit_maker_stats with
      | none => m
      | some (jit_user_stats, jit_user_stats_loader) =>
        mapInsert jit_user_stats jit_user_stats_loader m)

/-! ## Fixtures of math/amm/tests.rs

ammLongWithLoss is the market of calculate_expiry_price_long_imbalance_with_loss_test
(entry price 31506), ammLongImbalance the market of
calculate_expiry_price_long_imbalance_test (entry price 16866.66),
ammShortImbalance the market of calculate_expiry_price_test (entry price
25000), ammSymmetric the symmetric market of calculate_net_user_pnl_test and
calculate_expiry_price_test. -/

def ammLongWithLoss : AMM :=
  { base_asset_reserve := 512295081967
    quote_asset_reserve := 488 * AMM_RESERVE_PRECISION
    sqrt_k := 500 * AMM_RESERVE_PRECISION
    peg_multiplier := 22100000000
    base_asset_amount_with_amm := 12295081967
    quote_asset_amount := -193688524588 * 2 }

def ammLongImbalance : AMM :=
  { ammLongWithLoss with quote_asset_amount := -103688524588 * 2 }

def ammShortImbalance : AMM :=
  { ammLongWithLoss with
    base_asset_amount_with_amm := -12295081967
    quote_asset_amount := 153688524588 * 2 }

def ammSymmetric : AMM :=
  { base_asset_reserve := 2 * AMM_RESERVE_PRECISION
    quote_asset_reserve := 2 * AMM_RESERVE_PRECISION
    peg_multiplier := PEG_PRECISION }

/-- Oracle price of the skewed BTC fixtures: 22050 * PRICE_PRECISION. -/
def btcOraclePrice : Int := 22050000000

/-! ### Validation of the model against every assert_eq of the expiry and pnl
tests (tests.rs lines 40-41, 97-134, 179-216, 249-333) -/

theorem validate_reserve_price_btc :
    ammLongWithLoss.reserve_price = some 21051929600 := by decide

theorem validate_terminal_price_long :
    calculate_terminal_price_and_reserves ammLongWithLoss
      = some (20076684570, 524590163934, 476562500000) := by decide

theorem validate_terminal_price_short :
    calculate_terminal_price_and_reserves ammShortImbalance
      = some (22100000000, 500000000000, 500000000000) := by decide

theorem validate_expiry_long_with_loss :
    calculate_expiry_price ammLongWithLoss btcOraclePrice 0 = 22049999999 ∧
    calculate_expiry_price ammLongWithLoss btcOraclePrice 111111110 = 22049999999 ∧
    calculate_expiry_price ammLongWithLoss btcOraclePrice 1111111110 = 22049999999 ∧
    calculate_expiry_price ammLongWithLoss btcOraclePrice (111111110 * QUOTE_PRECISION)
      = 22049999999 := by decide

theorem validate_expiry_long_imbalance :
    calculate_expiry_price ammLongImbalance btcOraclePrice 0 = 16866666665 ∧
    calculate_expiry_price ammLongImbalance btcOraclePrice 111111110 = 16875703702 ∧
    calculate_expiry_price ammLongImbalance btcOraclePrice 1111111110 = 16957037035 ∧
    calculate_expiry_price ammLongImbalance btcOraclePrice (111111110 * QUOTE_PRECISION)
      = 22049999999 := by decide

theorem validate_expiry_short_imbalance :
    calculate_expiry_price ammShortImbalance btcOraclePrice 0 = 25000000001 ∧
    calculate_expiry_price ammShortImbalance btcOraclePrice 111111110 = 24990962964 ∧
    calculate_expiry_price ammShortImbalance btcOraclePrice 1111111110 = 24909629630 ∧
    calculate_expiry_price ammShortImbalance btcOraclePrice (111111110 * QUOTE_PRECISION)
      = 22050000001 := by decide

theorem validate_expiry_symmetric :
    calculate_expiry_price ammSymmetric 34000000 0 = 34000000 ∧
    calculate_expiry_price ammSymmetric 34000000 111111110 = 34000000 := by decide

theorem validate_net_user_pnl_symmetric :
    calculate_net_user_pnl ammSymmetric 34000000 = 0 := by decide

/-! ## Arithmetic helper lemmas: truncating division is monotone in the
numerator for a positive divisor and antitone for a negative one -/

theorem tdiv_le_tdiv_of_le {a b c : Int} (hc : 0 < c) (h : a ≤ b) :
    a.tdiv c ≤ b.tdiv c := by
  rcases le_or_lt 0 a with ha | ha
  · rw [Int.tdiv_eq_ediv ha hc.le, Int.tdiv_eq_ediv (ha.trans h) hc.le]
    exact Int.ediv_le_ediv hc h
  · rcases le_or_lt 0 b with hb | hb
    · have h1 : a.tdiv c ≤ 0 := by
        have h2 := Int.tdiv_nonneg (a := -a) (b := c) (by omega) hc.le
        rw [Int.neg_tdiv] at h2
        omega
      have h2 : 0 ≤ b.tdiv c := Int.tdiv_nonneg hb hc.le
      omega
    · have h3 : (-b).tdiv c ≤ (-a).tdiv c := by
        rw [Int.tdiv_eq_ediv (by omega) hc.le, Int.tdiv_eq_ediv (by omega) hc.le]
        exact Int.ediv_le_ediv hc (by omega)
      rw [Int.neg_tdiv, Int.neg_tdiv] at h3
      omega

theorem tdiv_le_tdiv_of_le_of_neg {a b c : Int} (hc : c < 0) (h : a ≤ b) :
    b.tdiv c ≤ a.tdiv c := by
  have ha : a.tdiv c = -(a.tdiv (-c)) := by
    rw [← Int.tdiv_neg, neg_neg]
  have hb : b.tdiv c = -(b.tdiv (-c)) := by
    rw [← Int.tdiv_neg, neg_neg]
  have h3 := tdiv_le_tdiv_of_le (c := -c) (by omega) h
  omega

/-! ## Claim C5 -/

/-- C5: for every AMM state whose net base position equals 0 and for every
settlement budget, calculate_expiry_price returns exactly the oracle (target)
price. -/
theorem calculate_expiry_price_zero_net_returns_oracle (amm : AMM) (target_price : Int)
    (budget : Nat) (h : amm.base_asset_amount_with_amm = 0) :
    calculate_expiry_price amm target_price budget = target_price := by
  simp [calculate_expiry_price, h]

/-- C5 witness: the symmetric fixture of calculate_expiry_price_test has zero
net base position and returns the oracle price at budget 111111110. -/
theorem calculate_expiry_price_zero_net_returns_oracle_witness :
    ammSymmetric.base_asset_amount_with_amm = 0 ∧
    calculate_expiry_price ammSymmetric 34000000 111111110 = 34000000 :=
  ⟨by decide,
    calculate_expiry_price_zero_net_returns_oracle ammSymmetric 34000000 111111110 (by decide)⟩

/-! ## Claim C1 -/

/-- C1 counterexample: in the long-imbalance fixture of
calculate_expiry_price_long_imbalance_test the net base position is strictly
positive, yet a zero settlement budget yields 16866666665, which is not
oracle_price - 1 = 22049999999 (tests.rs line 185). -/
theorem expiry_price_zero_budget_not_always_oracle_minus_one :
    0 < ammLongImbalance.base_asset_amount_with_amm ∧
    calculate_expiry_price ammLongImbalance btcOraclePrice 0 = 16866666665 ∧
    (16866666665 : Int) ≠ btcOraclePrice - 1 := by decide

/-- C1 amended: with a strictly positive net base position and a zero budget,
the settlement price is oracle_price - 1 exactly when the zero-budget implied
settlement price (-net_quote * scale / net_position) is at least the oracle
price; in general the result is the minimum of the two, minus one. -/
theorem expiry_price_zero_budget_oracle_minus_one_of_implied_ge (amm : AMM)
    (target_price : Int)
    (hpos : 0 < amm.base_asset_amount_with_amm)
    (himpl : target_price ≤
      ((0 - amm.quote_asset_amount) * EXPIRY_PRICE_SCALE).tdiv
        amm.base_asset_amount_with_amm) :
    calculate_expiry_price amm target_price 0 = target_price - 1 := by
  simp only [calculate_expiry_price, if_neg (by omega : ¬ amm.base_asset_amount_with_amm = 0),
    if_pos hpos, Nat.cast_zero]
  rw [min_eq_right himpl]

/-- C1 witness: the with-loss fixture (entry price 31506, above the oracle)
does settle at oracle_price - 1 under a zero budget. -/
theorem expiry_price_zero_budget_oracle_minus_one_witness :
    calculate_expiry_price ammLongWithLoss btcOraclePrice 0 = btcOraclePrice - 1 :=
  expiry_price_zero_budget_oracle_minus_one_of_implied_ge ammLongWithLoss btcOraclePrice
    (by decide) (by decide)

/-! ## Claim C2 -/

/-- C2 counterexample: in the long-imbalance fixture, raising the budget from
1111111110 to 111111110000000 moves the settlement price from 16957037035 to
22049999999, which does not lie between the former value and the terminal
price 20076684570 — the price crosses strictly past the terminal price
(tests.rs lines 199-216). -/
theorem expiry_price_budget_crosses_terminal_price :
    calculate_expiry_price ammLongImbalance btcOraclePrice 1111111110 = 16957037035 ∧
    calculate_expiry_price ammLongImbalance btcOraclePrice 111111110000000 = 22049999999 ∧
    calculate_terminal_price_and_reserves ammLongImbalance
      = some (20076684570, 524590163934, 476562500000) ∧
    ¬ ((16957037035 : Int) ≤ 22049999999 ∧ (22049999999 : Int) ≤ 20076684570) ∧
    ¬ ((20076684570 : Int) ≤ 22049999999 ∧ (22049999999 : Int) ≤ 16957037035) := by
  decide

/-- C2 amended: for a nonzero net base position the settlement price is
monotonic in the budget toward the oracle-side bound, not toward the terminal
price: with traders net long it is nondecreasing in the budget and never
exceeds oracle_price - 1, and with traders net short it is nonincreasing in
the budget and never drops below oracle_price + 1; it may cross the terminal
price. -/
theorem expiry_price_monotone_in_budget_toward_oracle_bound (amm : AMM)
    (target_price : Int) (b1 b2 : Nat) (hb : b1 ≤ b2) :
    (0 < amm.base_asset_amount_with_amm →
      calculate_expiry_price amm target_price b1
        ≤ calculate_expiry_price amm target_price b2 ∧
      calculate_expiry_price amm target_price b2 ≤ target_price - 1) ∧
    (amm.base_asset_amount_with_amm < 0 →
      calculate_expiry_price amm target_price b2
        ≤ calculate_expiry_price amm target_price b1 ∧
      target_price + 1 ≤ calculate_expiry_price amm target_price b2) := by
  have hbz : (b1 : Int) ≤ (b2 : Int) := by exact_mod_cast hb
  have hS : (0 : Int) < EXPIRY_PRICE_SCALE := by norm_num [EXPIRY_PRICE_SCALE]
  have hnum : ((b1 : Int) - amm.quote_asset_amount) * EXPIRY_PRICE_SCALE
      ≤ ((b2 : Int) - amm.quote_asset_amount) * EXPIRY_PRICE_SCALE :=
    mul_le_mul_of_nonneg_right (by omega) hS.le
  constructor
  · intro hpos
    simp only [calculate_expiry_price, if_neg (by omega : ¬ amm.base_asset_amount_with_amm = 0),
      if_pos hpos]
    have hdiv := tdiv_le_tdiv_of_le hpos hnum
    refine ⟨by have := min_le_min hdiv (le_refl target_price); omega, ?_⟩
    have := min_le_right
      ((((b2 : Int) - amm.quote_asset_amount) * EXPIRY_PRICE_SCALE).tdiv
        amm.base_asset_amount_with_amm) target_price
    omega
  · intro hneg
    simp only [calculate_expiry_price, if_neg (by omega : ¬ amm.base_asset_amount_with_amm = 0),
      if_neg (by omega : ¬ 0 < amm.base_asset_amount_with_amm)]
    have hdiv := tdiv_le_tdiv_of_le_of_neg hneg hnum
    refine ⟨by have := max_le_max hdiv (le_refl target_price); omega, ?_⟩
    have := le_max_right
      ((((b2 : Int) - amm.quote_asset_amount) * EXPIRY_PRICE_SCALE).tdiv
        amm.base_asset_amount_with_amm) target_price
    omega

/-- C2 witness: in the long-imbalance fixture the settlement price at budget
111111110 is below the one at budget 1111111110, which stays below
oracle_price - 1. -/
theorem expiry_price_monotone_in_budget_witness :
    calculate_expiry_price ammLongImbalance btcOraclePrice 111111110
      ≤ calculate_expiry_price ammLongImbalance btcOraclePrice 1111111110 ∧
    calculate_expiry_price ammLongImbalance btcOraclePrice 1111111110
      ≤ btcOraclePrice - 1 :=
  (expiry_price_monotone_in_budget_toward_oracle_bound ammLongImbalance btcOraclePrice
    111111110 1111111110 (by norm_num)).1 (by decide)

/-! ## Claim C3 -/

/-- C3 counterexample: in the skewed BTC fixture of
calculate_expiry_price_long_imbalance_with_loss_test, a settlement budget of
111111110 * QUOTE_PRECISION yields 22049999999, which exceeds the terminal
price 20076684570 (tests.rs lines 126-134): the settlement price is not
bounded by the terminal price, and a full budget does not return it. -/
theorem expiry_price_btc_budget_exceeds_terminal :
    calculate_expiry_price ammLongWithLoss btcOraclePrice (111111110 * QUOTE_PRECISION)
      = 22049999999 ∧
    calculate_terminal_price_and_reserves ammLongWithLoss
      = some (20076684570, 524590163934, 476562500000) ∧
    ¬ ((22049999999 : Int) ≤ 20076684570) := by decide

/-- C3 amended: in the skewed BTC fixture a budget of
111111110 * QUOTE_PRECISION yields exactly oracle_price - 1 = 22049999999,
which lies strictly above the terminal price 20076684570: the settlement price
is capped one unit below the oracle price, not at the terminal price. -/
theorem expiry_price_btc_full_budget_capped_at_oracle_minus_one :
    calculate_expiry_price ammLongWithLoss btcOraclePrice (111111110 * QUOTE_PRECISION)
      = btcOraclePrice - 1 ∧
    calculate_terminal_price_and_reserves ammLongWithLoss
      = some (20076684570, 524590163934, 476562500000) ∧
    (20076684570 : Int) < btcOraclePrice - 1 := by decide

/-! ## Claim C6 -/

def ammZeroBaseNonzeroQuote : AMM := { ammSymmetric with quote_asset_amount := 5000000 }

/-- C6 counterexample: an AMM state with zero net base position but a nonzero
recorded net quote amount has nonzero net user pnl. -/
theorem net_user_pnl_zero_base_nonzero_quote :
    ammZeroBaseNonzeroQuote.base_asset_amount_with_amm = 0 ∧
    calculate_net_user_pnl ammZeroBaseNonzeroQuote 34000000 = -5000000 ∧
    (-5000000 : Int) ≠ 0 := by decide

/-- C6 amended: for every AMM state with zero net base position and zero
recorded net quote amount, calculate_net_user_pnl returns 0 at every price. -/
theorem net_user_pnl_zero_for_flat_amm (amm : AMM) (oracle_price : Int)
    (hb : amm.base_asset_amount_with_amm = 0) (hq : amm.quote_asset_amount = 0) :
    calculate_net_user_pnl amm oracle_price = 0 := by
  simp [calculate_net_user_pnl, hb, hq, Int.zero_tdiv]

/-- C6 witness: the symmetric fixture of calculate_net_user_pnl_test (reserves
2 * AMM_RESERVE_PRECISION each, unit peg) has zero net user pnl at oracle
price 34 * PRICE_PRECISION. -/
theorem net_user_pnl_zero_for_flat_amm_witness :
    calculate_net_user_pnl ammSymmetric 34000000 = 0 :=
  net_user_pnl_zero_for_flat_amm ammSymmetric 34000000 (by decide) (by decide)

/-! ## Claim C7 -/

/-- C7: update_oracle_price_twap is a no-op at non-positive elapsed time —
elapsed time is floored at 0 — so calling it twice with the same timestamp and
oracle sample leaves exactly the same state (every field) as calling it once,
and a call whose timestamp does not exceed the stored one leaves the state
untouched. -/
theorem update_oracle_price_twap_idempotent_same_ts (amm s1 : AMM) (now : Int)
    (oracle_price_data : OraclePriceData)
    (h : update_oracle_price_twap amm now oracle_price_data = some s1) :
    update_oracle_price_twap s1 now oracle_price_data = some s1 ∧
    (now ≤ amm.historical_oracle_data.last_oracle_price_twap_ts → s1 = amm) := by
  by_cases h0 : max 0 (now - amm.historical_oracle_data.last_oracle_price_twap_ts) = 0
  · rw [update_oracle_price_twap, if_pos h0] at h
    have hs : amm = s1 := Option.some.inj h
    subst hs
    exact ⟨by rw [update_oracle_price_twap, if_pos h0], fun _ => rfl⟩
  · rw [update_oracle_price_twap] at h
    rw [if_neg h0] at h
    by_cases hp : amm.funding_period ≤ 0
    · rw [if_pos hp] at h
      cases h
    · rw [if_neg hp] at h
      have hs := Option.some.inj h
      subst hs
      constructor
      · rw [update_oracle_price_twap]
        rw [if_pos (by simp)]
      · intro hle
        exfalso
        apply h0
        omega

/-! ## Claim C8 -/

/-- Helper for C8: one EMA step toward a target within distance bound of the
old value moves the value by at most the bound. -/
theorem ema_step_within_bound (old target w p bound : Int) (hp : 0 < p)
    (hw0 : 0 ≤ w) (hwp : w ≤ p) (hlo : old - bound ≤ target) (hhi : target ≤ old + bound) :
    old - bound ≤ ema_step old target w p ∧ ema_step old target w p ≤ old + bound := by
  unfold ema_step
  have hub : (target - old) * w ≤ bound * p := by nlinarith
  have hlb : -(bound * p) ≤ (target - old) * w := by nlinarith
  have h1 : (target - old) * w / p ≤ bound * p / p := Int.ediv_le_ediv hp hub
  have h2 : -(bound * p) / p ≤ (target - old) * w / p := Int.ediv_le_ediv hp hlb
  rw [Int.mul_ediv_cancel _ (by omega)] at h1
  rw [Int.neg_ediv_of_dvd ⟨bound, mul_comm bound p⟩] at h2
  rw [Int.mul_ediv_cancel _ (by omega)] at h2
  omega

/-- C8: in a call of update_oracle_price_twap with positive elapsed time,
when the sample deviates from the previous TWAP by more than the clamp bound
computed from the oracle-volatility estimate and the elapsed fraction of the
window, the value recorded as the normalised price is previous TWAP plus
(respectively minus) that bound rather than the raw sample; the value folded
into both the full-window and the five-minute EMA is the recorded normalised
value; and the full-window TWAP moves by at most the bound in the step, so a
10x sample jump relocates it only gradually. -/
theorem update_oracle_price_twap_clamps_jump (amm s1 : AMM) (now : Int)
    (oracle_price_data : OraclePriceData)
    (h : update_oracle_price_twap amm now oracle_price_data = some s1)
    (ht : amm.historical_oracle_data.last_oracle_price_twap_ts < now) :
    (amm.historical_oracle_data.last_oracle_price_twap
        + oracle_twap_clamp_bound amm
            (now - amm.historical_oracle_data.last_oracle_price_twap_ts)
        < oracle_price_data.price →
      s1.last_oracle_normalised_price
        = amm.historical_oracle_data.last_oracle_price_twap
          + oracle_twap_clamp_bound amm
              (now - amm.historical_oracle_data.last_oracle_price_twap_ts)) ∧
    (oracle_price_data.price
        < amm.historical_oracle_data.last_oracle_price_twap
          - oracle_twap_clamp_bound amm
              (now - amm.historical_oracle_data.last_oracle_price_twap_ts) →
      s1.last_oracle_normalised_price
        = amm.historical_oracle_data.last_oracle_price_twap
          - oracle_twap_clamp_bound amm
              (now - amm.historical_oracle_data.last_oracle_price_twap_ts)) ∧
    s1.historical_oracle_data.last_oracle_price_twap
      = ema_step amm.historical_oracle_data.last_oracle_price_twap
          s1.last_oracle_normalised_price
          (min (now - amm.historical_oracle_data.last_oracle_price_twap_ts)
            amm.funding_period)
          amm.funding_period ∧
    s1.historical_oracle_data.last_oracle_price_twap_5min
      = ema_step amm.historical_oracle_data.last_oracle_price_twap_5min
          s1.last_oracle_normalised_price
          (min (now - amm.historical_oracle_data.last_oracle_price_twap_ts) FIVE_MINUTE)
          FIVE_MINUTE ∧
    amm.historical_oracle_data.last_oracle_price_twap
        - oracle_twap_clamp_bound amm
            (now - amm.historical_oracle_data.last_oracle_price_twap_ts)
      ≤ s1.historical_oracle_data.last_oracle_price_twap ∧
    s1.historical_oracle_data.last_oracle_price_twap
      ≤ amm.historical_oracle_data.last_oracle_price_twap
        + oracle_twap_clamp_bound amm
            (now - amm.historical_oracle_data.last_oracle_price_twap_ts) := by
  rw [update_oracle_price_twap] at h
  rw [if_neg (by omega : ¬ max 0 (now - amm.historical_oracle_data.last_oracle_price_twap_ts) = 0)] at h
  by_cases hp : amm.funding_period ≤ 0
  · rw [if_pos hp] at h
    cases h
  · rw [if_neg hp] at h
    have hs := Option.some.inj h
    subst hs
    have hmax : max 0 (now - amm.historical_oracle_data.last_oracle_price_twap_ts)
        = now - amm.historical_oracle_data.last_oracle_price_twap_ts := by omega
    simp only [hmax]
    set told := amm.historical_oracle_data.last_oracle_price_twap with htold
    set bound := oracle_twap_clamp_bound amm
      (now - amm.historical_oracle_data.last_oracle_price_twap_ts) with hbound
    have hbnd : 0 ≤ bound := by
      rw [hbound]
      unfold oracle_twap_clamp_bound
      apply Int.ediv_nonneg
      · apply mul_nonneg (Nat.cast_nonneg _)
        have : (0:Int) ≤ min (now - amm.historical_oracle_data.last_oracle_price_twap_ts)
            amm.funding_period := le_min (by omega) (by omega)
        omega
      · omega
    have hclamplo : told - bound ≤ max (told - bound) (min (told + bound) oracle_price_data.price) :=
      le_max_left _ _
    have hclamphi : max (told - bound) (min (told + bound) oracle_price_data.price) ≤ told + bound := by
      apply max_le (by omega)
      exact le_trans (min_le_left _ _) (by omega)
    have hw0 : (0:Int) ≤ min (now - amm.historical_oracle_data.last_oracle_price_twap_ts)
        amm.funding_period := le_min (by omega) (by omega)
    have hwp : min (now - amm.historical_oracle_data.last_oracle_price_twap_ts)
        amm.funding_period ≤ amm.funding_period := min_le_right _ _
    have hgrad := ema_step_within_bound told
      (max (told - bound) (min (told + bound) oracle_price_data.price))
      (min (now - amm.historical_oracle_data.last_oracle_price_twap_ts) amm.funding_period)
      amm.funding_period bound (by omega) hw0 hwp hclamplo hclamphi
    refine ⟨?_, ?_, ?_, ?_, ?_, ?_⟩
    · intro hdev
      show (told - bound) ⊔ ((told + bound) ⊓ oracle_price_data.price) = told + bound
      rw [min_eq_left hdev.le, max_eq_right (by omega)]
    · intro hdev
      show (told - bound) ⊔ ((told + bound) ⊓ oracle_price_data.price) = told - bound
      rw [min_eq_right (by omega), max_eq_left (by omega)]
    · trivial
    · trivial
    · exact hgrad.1
    · exact hgrad.2
/-! ## Claim C4 -/

/-- Helper for C4: the midpoint of an ordered pair lies between the two. -/
theorem midpoint_between {a b : Nat} (h : a ≤ b) : a ≤ (a + b) / 2 ∧ (a + b) / 2 ≤ b := by
  omega

/-- Helper for C4: one update_mark_twap call from a state with ordered bid and
ask TWAPs yields a state satisfying the full mark TWAP invariant. -/
theorem update_mark_twap_step (amm amm1 : AMM) (now : Int) (trade_price : Nat)
    (direction : Option PositionDirection)
    (hba : amm.last_bid_price_twap ≤ amm.last_ask_price_twap)
    (h : update_mark_twap amm now trade_price direction = some amm1) :
    markTwapInvariant amm1 := by
  rw [update_mark_twap] at h
  by_cases hp : amm.funding_period ≤ 0
  · rw [if_pos hp] at h
    cases h
  · rw [if_neg hp] at h
    have hs := Option.some.inj h
    subst hs
    have hprices : trade_price
        - trade_price * (mark_twap_spreads amm direction).1 / BID_ASK_SPREAD_PRECISION
        ≤ trade_price
          + trade_price * (mark_twap_spreads amm direction).2 / BID_ASK_SPREAD_PRECISION :=
      le_trans (Nat.sub_le _ _) (Nat.le_add_right _ _)
    have hbidask : calculate_weighted_average
        (trade_price - trade_price * (mark_twap_spreads amm direction).1 / BID_ASK_SPREAD_PRECISION)
        amm.last_bid_price_twap
        (min (max 1 (now - amm.last_mark_price_twap_ts)).toNat amm.funding_period.toNat)
        (amm.funding_period.toNat
          - min (max 1 (now - amm.last_mark_price_twap_ts)).toNat amm.funding_period.toNat)
        ≤ calculate_weighted_average
        (trade_price + trade_price * (mark_twap_spreads amm direction).2 / BID_ASK_SPREAD_PRECISION)
        amm.last_ask_price_twap
        (min (max 1 (now - amm.last_mark_price_twap_ts)).toNat amm.funding_period.toNat)
        (amm.funding_period.toNat
          - min (max 1 (now - amm.last_mark_price_twap_ts)).toNat amm.funding_period.toNat) := by
      unfold calculate_weighted_average
      apply Nat.div_le_div_right
      exact Nat.add_le_add (Nat.mul_le_mul_right _ hprices) (Nat.mul_le_mul_right _ hba)
    exact ⟨(midpoint_between hbidask).1, (midpoint_between hbidask).2, rfl⟩

/-- Helper for C4: the mark TWAP invariant is preserved by any further
sequence of trades. -/
theorem applyMarkTrades_preserves (trades : List MarkTrade) (amm s1 : AMM)
    (hinv : markTwapInvariant amm) (h : applyMarkTrades amm trades = some s1) :
    markTwapInvariant s1 := by
  induction trades generalizing amm with
  | nil =>
    rw [applyMarkTrades] at h
    have hs := Option.some.inj h
    subst hs
    exact hinv
  | cons t rest ih =>
    rw [applyMarkTrades] at h
    cases hu : update_mark_twap amm t.now t.price t.direction with
    | none => rw [hu] at h; cases h
    | some amm2 =>
      rw [hu] at h
      exact ih amm2 (update_mark_twap_step amm amm2 t.now t.price t.direction
        (le_trans hinv.1 hinv.2.1) hu) h

/-- C4: starting from any AMM state whose bid TWAP does not exceed its ask
TWAP, after every call of update_mark_twap in any sequence of trade prices and
directions the resulting mark TWAP equals (bid_twap + ask_twap) / 2 and
bid_twap ≤ mark_twap ≤ ask_twap holds on the updated state. -/
theorem update_mark_twap_preserves_bid_mark_ask_order (amm s1 : AMM) (t : MarkTrade)
    (trades : List MarkTrade)
    (hba : amm.last_bid_price_twap ≤ amm.last_ask_price_twap)
    (h : applyMarkTrades amm (t :: trades) = some s1) :
    s1.last_bid_price_twap ≤ s1.last_mark_price_twap ∧
    s1.last_mark_price_twap ≤ s1.last_ask_price_twap ∧
    s1.last_mark_price_twap = (s1.last_bid_price_twap + s1.last_ask_price_twap) / 2 := by
  rw [applyMarkTrades] at h
  cases hu : update_mark_twap amm t.now t.price t.direction with
  | none => rw [hu] at h; cases h
  | some amm2 =>
    rw [hu] at h
    exact applyMarkTrades_preserves trades amm2 s1
      (update_mark_twap_step amm amm2 t.now t.price t.direction hba hu) h

/-! ### Concrete fixtures and witnesses for C4, C7 and C8 -/

def ammOracleSteady : AMM :=
  { funding_period := 3600
    oracle_std := 100000
    last_oracle_normalised_price := 13000000
    historical_oracle_data :=
      { last_oracle_price := 13000000
        last_oracle_price_twap := 13000000
        last_oracle_price_twap_5min := 13000000
        last_oracle_price_twap_ts := 0 } }

def oracleSteadySample : OraclePriceData :=
  { price := 13000873, confidence := 10000, delay := 1 }

/-- State produced by one update of ammOracleSteady with oracleSteadySample at
time 60. -/
def ammOracleSteadyAfter : AMM :=
  { funding_period := 3600
    oracle_std := 98347
    last_oracle_normalised_price := 13000873
    historical_oracle_data :=
      { last_oracle_price := 13000873
        last_oracle_price_twap := 13000014
        last_oracle_price_twap_5min := 13000174
        last_oracle_price_twap_ts := 60 } }

/-- C7 witness: repeating the update of ammOracleSteady at the unchanged
timestamp 60 returns the once-updated state unchanged. -/
theorem update_oracle_price_twap_idempotent_witness :
    update_oracle_price_twap ammOracleSteadyAfter 60 oracleSteadySample
      = some ammOracleSteadyAfter :=
  (update_oracle_price_twap_idempotent_same_ts ammOracleSteady ammOracleSteadyAfter 60
    oracleSteadySample (by decide)).1

/-- Oracle sample jumping 10x above the TWAP of ammOracleSteady. -/
def oracleJumpSample : OraclePriceData :=
  { price := 130000873, confidence := 100000, delay := 1 }

/-- State produced by one update of ammOracleSteady with the 10x jump sample
at time 60: the normalised price is clamped to 13000000 + 1666. -/
def ammOracleJumpAfter : AMM :=
  { funding_period := 3600
    oracle_std := 98361
    last_oracle_normalised_price := 13001666
    historical_oracle_data :=
      { last_oracle_price := 130000873
        last_oracle_price_twap := 13000027
        last_oracle_price_twap_5min := 13000333
        last_oracle_price_twap_ts := 60 } }

/-- C8 witness: under the 10x jump the recorded normalised price equals the
previous TWAP plus the clamp bound. -/
theorem update_oracle_price_twap_clamps_jump_witness :
    ammOracleJumpAfter.last_oracle_normalised_price
      = ammOracleSteady.historical_oracle_data.last_oracle_price_twap
        + oracle_twap_clamp_bound ammOracleSteady
            (60 - ammOracleSteady.historical_oracle_data.last_oracle_price_twap_ts) :=
  (update_oracle_price_twap_clamps_jump ammOracleSteady ammOracleJumpAfter 60 oracleJumpSample
    (by decide) (by decide)).1 (by decide)

/-- Fixture for the C4 witness, with funding period 3600 and a bid/ask TWAP
pair 20.06/20.10. -/
def ammMarkStart : AMM :=
  { funding_period := 3600
    base_spread := 500
    long_spread := 5000
    short_spread := 500
    last_mark_price_twap := 20080000
    last_bid_price_twap := 20060000
    last_ask_price_twap := 20100000
    last_mark_price_twap_ts := 0 }

/-- State produced by one long trade at price 22051280 and time 5 on
ammMarkStart. -/
def ammMarkAfter : AMM :=
  { ammMarkStart with
    last_bid_price_twap := 20062750
    last_ask_price_twap := 20102863
    last_mark_price_twap := 20082806
    last_mark_price_twap_ts := 5 }

/-- C4 witness: after the concrete long trade the mark TWAP is the midpoint of
bid and ask TWAPs and lies between them. -/
theorem update_mark_twap_preserves_bid_mark_ask_order_witness :
    ammMarkAfter.last_bid_price_twap ≤ ammMarkAfter.last_mark_price_twap ∧
    ammMarkAfter.last_mark_price_twap ≤ ammMarkAfter.last_ask_price_twap ∧
    ammMarkAfter.last_mark_price_twap
      = (ammMarkAfter.last_bid_price_twap + ammMarkAfter.last_ask_price_twap) / 2 :=
  update_mark_twap_preserves_bid_mark_ask_order ammMarkStart ammMarkAfter
    ⟨5, 22051280, some PositionDirection.Long⟩ [] (by decide) (by decide)

/-! ## Claim C9 -/

/-- C9: UserMap::get_ref_mut returns ErrorCode::PerpMarketNotFound — the
missing-perp-market error code, not a user-specific one — for every pubkey
absent from the underlying map, and ErrorCode::UnableToLoadUserAccount for a
present key whose account loader fails to load. -/
theorem userMap_get_ref_mut_error_codes (m : UserMap) (user : Pubkey) :
    (mapGet m user = none →
      UserMap.get_ref_mut m user = .error .PerpMarketNotFound) ∧
    (∀ loader : AccountLoaderOf User, mapGet m user = some loader →
      loader.can_load = false →
      UserMap.get_ref_mut m user = .error .UnableToLoadUserAccount) := by
  constructor
  · intro h
    rw [UserMap.get_ref_mut, h]
  · intro loader h hl
    rw [UserMap.get_ref_mut, h]
    simp [AccountLoaderOf.load_mut, hl]

def emptyUserMap : UserMap := []

def failingLoader : AccountLoaderOf User := ⟨false, {}⟩

def oneUserMap : UserMap := [([1], failingLoader)]

/-- C9 witness: the empty map misses the key, and a singleton map with a
failing loader hits the loader error. -/
theorem userMap_get_ref_mut_error_codes_witness :
    UserMap.get_ref_mut emptyUserMap [1] = .error .PerpMarketNotFound ∧
    UserMap.get_ref_mut oneUserMap [1] = .error .UnableToLoadUserAccount :=
  ⟨(userMap_get_ref_mut_error_codes emptyUserMap [1]).1 (by decide),
   (userMap_get_ref_mut_error_codes oneUserMap [1]).2 failingLoader (by decide) (by decide)⟩

/-- Helper for C10: a member of a map after an insert is the inserted pair or
an original member. -/
theorem mem_mapInsert {β : Type} (key : Pubkey) (v : β) (m : List (Pubkey × β))
    (kv : Pubkey × β) (h : kv ∈ mapInsert key v m) : kv = (key, v) ∨ kv ∈ m := by
  induction m with
  | nil => simpa [mapInsert] using h
  | cons p rest ih =>
    obtain ⟨k, w⟩ := p
    rw [mapInsert] at h
    by_cases hk : k = key
    · rw [if_pos hk] at h
      rcases List.mem_cons.mp h with h1 | h1
      · exact Or.inl h1
      · exact Or.inr (List.mem_cons_of_mem _ h1)
    · rw [if_neg hk] at h
      rcases List.mem_cons.mp h with h1 | h1
      · exact Or.inr (h1 ▸ List.mem_cons_self _ _)
      · rcases ih h1 with h2 | h2
        · exact Or.inl h2
        · exact Or.inr (List.mem_cons_of_mem _ h2)

/-- Helper for C10: every entry produced by the UserStatsMap load loop beyond
the accumulator is keyed by the authority parsed from bytes 8..40 of some
account's data. -/
theorem userStatsMapLoadLoop_keys (sz : Nat) (disc : List Nat) :
    ∀ (accounts : List AccountInfo) (m0 m1 : List (Pubkey × AccountLoaderOf UserStats)),
    userStatsMapLoadLoop sz disc accounts m0 = .ok m1 →
    ∀ kv ∈ m1, kv ∈ m0 ∨ ∃ a ∈ accounts, kv.1 = authorityOfData a.data := by
  intro accounts
  induction accounts with
  | nil =>
    intro m0 m1 h kv hkv
    rw [userStatsMapLoadLoop] at h
    exact Or.inl ((Except.ok.inj h) ▸ hkv)
  | cons a rest ih =>
    intro m0 m1 h kv hkv
    rw [userStatsMapLoadLoop] at h
    split_ifs at h
    all_goals try (cases h <;> exact Or.inl hkv)
    rcases ih _ _ h kv hkv with hmem | ⟨b, hb, hkey⟩
    · rcases mem_mapInsert _ _ _ _ hmem with h2 | h2
      · exact Or.inr ⟨a, List.mem_cons_self _ _, by rw [h2]⟩
      · exact Or.inl h2
    · exact Or.inr ⟨b, List.mem_cons_of_mem _ hb, hkey⟩

/-- Helper for C10: every entry produced by the UserMap load loop beyond the
accumulator is keyed by some account's own address key. -/
theorem userMapLoadLoop_keys (sz : Nat) (disc : List Nat) :
    ∀ (accounts : List AccountInfo) (m0 m1 : List (Pubkey × AccountLoaderOf User)),
    userMapLoadLoop sz disc accounts m0 = .ok m1 →
    ∀ kv ∈ m1, kv ∈ m0 ∨ ∃ a ∈ accounts, kv.1 = a.key := by
  intro accounts
  induction accounts with
  | nil =>
    intro m0 m1 h kv hkv
    rw [userMapLoadLoop] at h
    exact Or.inl ((Except.ok.inj h) ▸ hkv)
  | cons a rest ih =>
    intro m0 m1 h kv hkv
    rw [userMapLoadLoop] at h
    split_ifs at h
    all_goals try (cases h <;> exact Or.inl hkv)
    rcases ih _ _ h kv hkv with hmem | ⟨b, hb, hkey⟩
    · rcases mem_mapInsert _ _ _ _ hmem with h2 | h2
      · exact Or.inr ⟨a, List.mem_cons_self _ _, by rw [h2]⟩
      · exact Or.inl h2
    · exact Or.inr ⟨b, List.mem_cons_of_mem _ hb, hkey⟩

/-! ## Claim C10 -/

/-- C10: UserStatsMap::load keys each inserted account loader by the authority
pubkey parsed from bytes 8..40 of the account's data, whereas UserMap::load
keys its entries by the account's own address key. -/
theorem user_maps_load_key_choice (user_stats_size user_size : Nat)
    (user_stats_discriminator user_discriminator : List Nat)
    (accounts : List AccountInfo) (ms : UserStatsMap) (mu : UserMap) :
    (UserStatsMap.load user_stats_size user_stats_discriminator accounts none = .ok ms →
      ∀ kv ∈ ms, ∃ a ∈ accounts, kv.1 = authorityOfData a.data) ∧
    (UserMap.load user_size user_discriminator accounts none = .ok mu →
      ∀ kv ∈ mu, ∃ a ∈ accounts, kv.1 = a.key) := by
  constructor
  · intro h kv hkv
    rw [UserStatsMap.load] at h
    cases hl : userStatsMapLoadLoop user_stats_size user_stats_discriminator accounts [] with
    | error e => rw [hl] at h; cases h
    | ok m =>
      rw [hl] at h
      have hm : m = ms := Except.ok.inj h
      subst hm
      rcases userStatsMapLoadLoop_keys _ _ accounts [] m hl kv hkv with hmem | hex
      · cases hmem
      · exact hex
  · intro h kv hkv
    rw [UserMap.load] at h
    cases hl : userMapLoadLoop user_size user_discriminator accounts [] with
    | error e => rw [hl] at h; cases h
    | ok m =>
      rw [hl] at h
      have hm : m = mu := Except.ok.inj h
      subst hm
      rcases userMapLoadLoop_keys _ _ accounts [] m hl kv hkv with hmem | hex
      · cases hmem
      · exact hex

def discFixture : List Nat := [1, 2, 3, 4, 5, 6, 7, 8]

def acctFixture : AccountInfo :=
  { key := [9], data := discFixture ++ List.replicate 32 4 }

def statsMapFixture : UserStatsMap :=
  [(List.replicate 32 4, ⟨true, ⟨List.replicate 32 4⟩⟩)]

def userMapFixture : UserMap :=
  [([9], ⟨true, ⟨List.replicate 32 4⟩⟩)]

/-- C10 witness: loading one well-formed account of each kind produces a
stats map keyed by the authority bytes and a user map keyed by the account
address. -/
theorem user_maps_load_key_choice_witness :
    (∀ kv ∈ statsMapFixture, ∃ a ∈ [acctFixture], kv.1 = authorityOfData a.data) ∧
    (∀ kv ∈ userMapFixture, ∃ a ∈ [acctFixture], kv.1 = a.key) :=
  ⟨(user_maps_load_key_choice 40 40 discFixture discFixture [acctFixture]
      statsMapFixture userMapFixture).1 rfl,
   (user_maps_load_key_choice 40 40 discFixture discFixture [acctFixture]
      statsMapFixture userMapFixture).2 rfl⟩
